import Mathlib

/-!
Verification of the stratux audio capture / encode / broadcast pipeline
(`initAudio`, `initPortAudio`, `loudness`, `streamer`, `handleAudioStream`).

The Go code is shallowly embedded: the subscriber registry (`streamer`) is a
finite association list from client id to its bounded queue, a Go buffered
channel is a list of chunks bounded by `QueueSize`, and the non-blocking
`select`/`default` send is a conditional append.  Each Lean definition is
translated from the corresponding Go function and keeps its name.
-/

namespace Stratux

/-- A `[]byte` chunk, modelled as a list of byte values. -/
abbrev Chunk := List Nat

/-- One subscriber's buffered channel.  `queue` is the current channel buffer
(bounded by the streamer's `QueueSize`); `received` is the history of every
chunk ever enqueued for this subscriber, recorded so that "subscriber X
received chunk C" is expressible after the handler has drained the buffer. -/
structure clientQ where
  queue : List Chunk
  received : List Chunk
deriving Repr, DecidableEq

/-- The fan-out registry (Go `type streamer struct`).  `clients` is the
`map[uint64]chan []byte` as an association list; `id` is the monotonically
increasing identity counter; `ReadBuff`, `QueueSize` and `WriteBuff` are the
tuning fields.  The mutex, the `Input` reader and the `Stop` channel are
concurrency plumbing handled by explicit state passing. -/
structure streamer where
  clients : List (Nat × clientQ)
  id : Nat
  ReadBuff : Nat
  QueueSize : Nat
  WriteBuff : Nat
deriving Repr, DecidableEq

/-- Go `streamer.init`: resets the skip counter and the client map and
allocates the stop channel.  Its named return `err` is never assigned, so the
function returns the pair of the updated streamer and the error value `nil`
(`none`) on every call. -/
def streamer.init (s : streamer) : streamer × Option String :=
  let s' := { s with clients := [] }
  let err : Option String := none
  (s', err)

/-- Go `streamer.addClient`: increment the id counter, register a fresh
buffered channel of capacity `QueueSize` under the new id, and return the id
together with the updated registry. -/
def streamer.addClient (s : streamer) : streamer × Nat :=
  let i := s.id + 1
  ({ s with id := i, clients := s.clients ++ [(i, ⟨[], []⟩)] }, i)

/-- Go `streamer.delClient`: `close(s.clients[id])` followed by
`delete(s.clients, id)`.  When `id` is absent from the map, the Go map access
yields the zero value for a channel type — a nil channel — and `close(nil)`
panics at run time; the panic is modelled as `none`.  When `id` is present the
channel is closed and the entry removed. -/
def streamer.delClient (s : streamer) (i : Nat) : Option streamer :=
  match s.clients.lookup i with
  | none => none
  | some _ => some { s with clients := s.clients.filter (fun p => p.1 ≠ i) }

/-- The body of the `select`/`default` statement in `streamer.send` for one
client: a non-blocking channel send that enqueues when the buffer has room and
otherwise drops the chunk for this client. -/
def trySend (qs : Nat) (c : clientQ) (b : Chunk) : clientQ :=
  if c.queue.length < qs then { queue := c.queue ++ [b], received := c.received ++ [b] }
  else c

/-- Go `streamer.send`: under the read lock, attempt a non-blocking enqueue of
`b` into every registered client's channel.  A total function: it neither
blocks nor returns an error. -/
def streamer.send (s : streamer) (b : Chunk) : streamer :=
  { s with clients := s.clients.map (fun p => (p.1, trySend s.QueueSize p.2 b)) }

/-- A delivery handler receiving one chunk from its channel: the head of the
subscriber's queue is consumed.  Registration and the received history are
untouched. -/
def streamer.drain (s : streamer) (i : Nat) : streamer :=
  { s with clients := s.clients.map (fun p =>
      (p.1, if p.1 = i then { p.2 with queue := p.2.queue.tail } else p.2)) }

/-- An interleaving of registry activity while a fixed set of subscribers is
registered: a broadcast of one chunk, or one subscriber consuming one queued
chunk. -/
inductive Event where
  | broadcast : Chunk → Event
  | drain : Nat → Event
deriving Repr, DecidableEq

def streamer.step (s : streamer) : Event → streamer
  | .broadcast b => s.send b
  | .drain i => s.drain i

def streamer.run (s : streamer) : List Event → streamer
  | [] => s
  | e :: es => (s.step e).run es

/-- `true` when no registered subscriber's queue is at capacity. -/
def streamer.noneFull (s : streamer) : Bool :=
  s.clients.all (fun p => p.2.queue.length < s.QueueSize)

/-- `true` when, replaying `es` from `s`, every broadcast happens at a moment
when no subscriber's queue is full. -/
def streamer.noneFullDuring (s : streamer) : List Event → Bool
  | [] => true
  | .broadcast b :: es => s.noneFull && (s.send b).noneFullDuring es
  | .drain i :: es => (s.drain i).noneFullDuring es

/-- The chunks broadcast by an event sequence, in order. -/
def broadcastChunks : List Event → List Chunk
  | [] => []
  | .broadcast b :: es => b :: broadcastChunks es
  | .drain _ :: es => broadcastChunks es

/-! ### Association-list lookup lemmas -/

theorem lookup_map_keyed (f : Nat → clientQ → clientQ) :
    ∀ (l : List (Nat × clientQ)) (i : Nat),
      (l.map (fun p => (p.1, f p.1 p.2))).lookup i = (l.lookup i).map (f i) := by
  intro l i
  induction l with
  | nil => rfl
  | cons p t ih =>
    by_cases h : i = p.1
    · subst h
      simp [List.lookup]
    · have hb : (i == p.1) = false := by
        exact beq_false_of_ne h
      simp [List.lookup, hb, ih]

theorem send_lookup (s : streamer) (b : Chunk) (i : Nat) :
    (s.send b).clients.lookup i
      = (s.clients.lookup i).map (fun c => trySend s.QueueSize c b) := by
  exact lookup_map_keyed (fun _ c => trySend s.QueueSize c b) s.clients i

theorem drain_lookup (s : streamer) (j i : Nat) :
    (s.drain j).clients.lookup i
      = (s.clients.lookup i).map
          (fun c => if i = j then { c with queue := c.queue.tail } else c) := by
  exact lookup_map_keyed (fun k c => if k = j then { c with queue := c.queue.tail } else c)
    s.clients i

theorem lookup_mem (l : List (Nat × clientQ)) (i : Nat) (c : clientQ)
    (h : l.lookup i = some c) : (i, c) ∈ l := by
  induction l with
  | nil => simp [List.lookup] at h
  | cons p t ih =>
    by_cases hb : i = p.1
    · subst hb
      simp [List.lookup] at h
      subst h
      exact List.mem_cons_self _ _
    · have hbf : (i == p.1) = false := beq_false_of_ne hb
      simp [List.lookup, hbf] at h
      exact List.mem_cons_of_mem _ (ih h)

theorem noneFull_lookup (s : streamer) (i : Nat) (c : clientQ)
    (hall : s.noneFull = true) (h : s.clients.lookup i = some c) :
    c.queue.length < s.QueueSize := by
  have hm : (i, c) ∈ s.clients := lookup_mem _ _ _ h
  have h2 := List.all_eq_true.mp hall _ hm
  exact of_decide_eq_true h2

/-- The streamer as configured by `initPortAudio` (lines 99–104): fresh
registry, id counter at its zero value, `ReadBuff = 4000`, `QueueSize = 10`,
`WriteBuff = 32768`. -/
def sessionStreamer : streamer :=
  { clients := [], id := 0, ReadBuff := 4000, QueueSize := 10, WriteBuff := 32768 }

/-- Two subscribers registered on a fresh session streamer. -/
def demoStreamer : streamer :=
  ((sessionStreamer.addClient).1.addClient).1

/-- C1: For every broadcast of a chunk, if some subscriber's queue is full at
broadcast time, the chunk is dropped for that subscriber only: every other
registered subscriber whose queue has room still receives the chunk appended
to its queue and its received history.  `streamer.send` is a total function on
the registry state, so the broadcast returns without blocking and has no error
to return. -/
theorem backpressure_drop_isolated (s : streamer) (b : Chunk) (i j : Nat) (ci cj : clientQ)
    (hi : s.clients.lookup i = some ci) (hifull : s.QueueSize ≤ ci.queue.length)
    (hj : s.clients.lookup j = some cj) (hjroom : cj.queue.length < s.QueueSize) :
    (s.send b).clients.lookup i = some ci
    ∧ (s.send b).clients.lookup j
        = some { queue := cj.queue ++ [b], received := cj.received ++ [b] } := by
  constructor
  · rw [send_lookup, hi]
    simp [trySend, Nat.not_lt.mpr hifull]
  · rw [send_lookup, hj]
    simp [trySend, hjroom]

theorem backpressure_drop_isolated_witness :
    ∃ s : streamer, ∃ b : Chunk,
      (s.send b).clients.lookup 1 = some ⟨[[7]], [[7]]⟩
      ∧ (s.send b).clients.lookup 2 = some ⟨[[9]], [[9]]⟩ :=
  ⟨{ clients := [(1, ⟨[[7]], [[7]]⟩), (2, ⟨[], []⟩)],
     id := 2, ReadBuff := 4000, QueueSize := 1, WriteBuff := 32768 }, [9],
   backpressure_drop_isolated _ [9] 1 2 ⟨[[7]], [[7]]⟩ ⟨[], []⟩
     (by decide) (by decide) (by decide) (by decide)⟩

/-- C2: for subscribers registered while a sequence of broadcasts and queue
drains is replayed, if no subscriber's queue is ever full at a broadcast,
then every registered subscriber receives exactly the broadcast chunks, in
the order they were broadcast, appended to its prior received history. -/
theorem fanout_ordering (es : List Event) (s : streamer) (i : Nat) (c : clientQ)
    (h : s.noneFullDuring es = true) (hc : s.clients.lookup i = some c) :
    ∃ c', (s.run es).clients.lookup i = some c'
      ∧ c'.received = c.received ++ broadcastChunks es := by
  induction es generalizing s c with
  | nil =>
    exact ⟨c, hc, by simp [streamer.run, broadcastChunks]⟩
  | cons e es ih =>
    cases e with
    | broadcast b =>
      have h1 : s.noneFull = true ∧ (s.send b).noneFullDuring es = true := by
        simpa [streamer.noneFullDuring, Bool.and_eq_true] using h
      have hlt : c.queue.length < s.QueueSize := noneFull_lookup s i c h1.1 hc
      have hsend : (s.send b).clients.lookup i
          = some { queue := c.queue ++ [b], received := c.received ++ [b] } := by
        rw [send_lookup, hc]
        simp [trySend, hlt]
      obtain ⟨c', hcl, hrec⟩ := ih (s.send b) _ h1.2 hsend
      refine ⟨c', ?_, ?_⟩
      · simpa [streamer.run, streamer.step] using hcl
      · simp only [hrec, broadcastChunks, List.append_assoc, List.singleton_append]
    | drain j =>
      have h1 : (s.drain j).noneFullDuring es = true := by
        simpa [streamer.noneFullDuring] using h
      have hdrain : (s.drain j).clients.lookup i
          = some (if i = j then { c with queue := c.queue.tail } else c) := by
        rw [drain_lookup, hc]
        rfl
      have hrecv : (if i = j then { c with queue := c.queue.tail } else c).received
          = c.received := by
        by_cases hij : i = j <;> simp [hij]
      obtain ⟨c', hcl, hrec⟩ := ih (s.drain j) _ h1 hdrain
      refine ⟨c', ?_, ?_⟩
      · simpa [streamer.run, streamer.step] using hcl
      · simp only [hrec, hrecv, broadcastChunks]

theorem fanout_ordering_witness :
    ∃ c', (demoStreamer.run
        [Event.broadcast [1, 2], Event.drain 1, Event.broadcast [3]]).clients.lookup 1
          = some c'
      ∧ c'.received = ([] : List Chunk)
          ++ broadcastChunks [Event.broadcast [1, 2], Event.drain 1, Event.broadcast [3]] :=
  fanout_ordering _ demoStreamer 1 ⟨[], []⟩ (by decide) (by decide)

/-- The registry after one `addClient` followed by one `delClient` of the
returned id. -/
def afterUnsub : streamer := { sessionStreamer with id := 1, clients := [] }

/-- C3: a second `delClient` for an identity that has already been removed is
NOT a safe no-op.  The Go body is `close(s.clients[id]); delete(s.clients, id)`;
for an absent key the map access yields the zero value — a nil channel — and
`close` of a nil channel panics at run time (modelled as `none`).  The first
removal succeeds; the repeated one panics. -/
theorem double_unsubscribe_panics :
    (sessionStreamer.addClient).1.delClient 1 = some afterUnsub
    ∧ afterUnsub.delClient 1 = none := by
  decide

/-- Go `loudness`, amplitude loop: `amplitude` starts at the zero value and is
overwritten by the first sample (the `i==0` branch of
`if i==0 || a > amplitude`) and afterwards by any strictly larger sample, so
it tracks the maximum raw signed sample, not the maximum magnitude.  An empty
buffer leaves the zero value 0. -/
def amplitude (buffer : List Int) : Int :=
  match buffer with
  | [] => 0
  | a :: rest => rest.foldl (fun acc x => if x > acc then x else acc) a

/-- The value of the Go expression
`float32(20 * math.Log10(float64(amplitude) / 32767.0))` as a function of the
integer amplitude, with the IEEE-754 special values made explicit: for a
positive amplitude `a` the reading is the finite value `20*Log10(a/32767)`
(carried symbolically by `finite a`; exact at the points evaluated here),
`Log10(0)` is negative infinity, and `Log10` of a negative argument is `NaN`. -/
inductive DBValue where
  | finite : Int → DBValue
  | negInf : DBValue
  | nan : DBValue
deriving Repr, DecidableEq

/-- The real number denoted by a finite meter reading: `finite a` denotes
`20 * log10(a / 32767)`; the IEEE special values denote no real number. -/
def DBValue.means : DBValue → ℝ → Prop
  | .finite a, x => x = 20 * Real.logb 10 ((a : ℝ) / 32767)
  | .negInf, _ => False
  | .nan, _ => False

def log10dB (a : Int) : DBValue :=
  if 0 < a then .finite a
  else if a = 0 then .negInf
  else .nan

/-- Go `loudness`: the dB conversion applied to the raw-signed-maximum
amplitude of the buffer. -/
def loudness (buffer : List Int) : DBValue := log10dB (amplitude buffer)

/-- C4: the Loudness Meter is the pure function `20*log10(max/32767)` where
`max` is the maximum raw signed sample (the fold of `max`, not of the absolute
value): `[32767]` gives exactly 0 dB, an all-zero buffer gives the negative
infinity sentinel, and a buffer whose largest magnitude is a negative sample
uses the raw (positive) maximum `100`, not `32768`. -/
theorem loudness_spec :
    (loudness [32767]).means 0
    ∧ (∀ n : Nat, loudness (List.replicate (n + 1) 0) = DBValue.negInf)
    ∧ (∀ (a : Int) (rest : List Int), amplitude (a :: rest) = rest.foldl max a)
    ∧ loudness [-32768, 100] = log10dB 100 := by
  have hmax : ∀ (acc x : ℤ), (if x > acc then x else acc) = max acc x := by
    intro acc x
    rcases le_or_lt x acc with h | h
    · rw [if_neg (not_lt.mpr h), max_eq_left h]
    · rw [if_pos h, max_eq_right h.le]
  refine ⟨?_, ?_, ?_, ?_⟩
  · have h2 : loudness [32767] = DBValue.finite 32767 := by decide
    rw [h2]
    show (0 : ℝ) = 20 * Real.logb 10 (((32767 : ℤ) : ℝ) / 32767)
    rw [show ((32767 : ℤ) : ℝ) / 32767 = 1 by norm_num, Real.logb_one, mul_zero]
  · intro n
    have hz : ∀ m : Nat,
        (List.replicate m (0 : ℤ)).foldl (fun acc x => if x > acc then x else acc) 0 = 0 := by
      intro m
      induction m with
      | zero => rfl
      | succ m ih => simpa [List.replicate] using ih
    have h0 : amplitude (List.replicate (n + 1) 0) = 0 := by
      simp only [List.replicate, amplitude]
      exact hz n
    simp [loudness, h0, log10dB]
  · intro a rest
    have hfold : ∀ (t : List ℤ) (a : ℤ),
        t.foldl (fun acc x => if x > acc then x else acc) a = t.foldl max a := by
      intro t
      induction t with
      | nil => intro a; rfl
      | cons x u ih =>
        intro a
        simp only [List.foldl]
        rw [hmax]
        exact ih _
    simpa only [amplitude] using hfold rest a
  · have h4 : amplitude [-32768, 100] = 100 := by decide
    simp only [loudness, h4]

/-- The fallible initialization steps of `initPortAudio` whose failure the
function logs before returning. -/
inductive InitStep where
  | lameWriter | openStream | startStream
deriving Repr, DecidableEq

/-- How a run of `initPortAudio` that reaches (or fails before) the read loop
ends its initialization phase. -/
inductive InitOutcome where
  | proceeded
  | sessionAbort : InitStep → InitOutcome
  | processFatal : InitOutcome
deriving Repr, DecidableEq

/-- Control flow of `initPortAudio` up to the read loop, as a function of
which fallible external calls fail.  The return value of
`portaudio.Initialize()` is discarded by the code, and the error from
`os.Create` is discarded with a blank identifier (`mp3File, _ := ...`), so
neither `deviceErr` nor `createErr` affects the outcome.  A failing
`lame.NewWriter`, `portaudio.OpenDefaultStream` or `stream.Start` is logged
and the function returns: the session aborts with no retry.  The error of
`audioStreamer.init()` is checked with `log.Fatalln` — a process-wide abort —
and the value fed to that check is the real `streamer.init` result. -/
def initPortAudio (deviceErr createErr lameErr openErr startErr : Bool) : InitOutcome :=
  if lameErr then .sessionAbort .lameWriter
  else if openErr then .sessionAbort .openStream
  else if startErr then .sessionAbort .startStream
  else match (sessionStreamer.init).2 with
    | some _ => .processFatal
    | none => .proceeded

/-- C5 counterexample: a destination-file creation failure does not log and
abort the Session — `os.Create`'s error is discarded and initialization
proceeds to the read loop. -/
theorem create_failure_ignored_counterexample :
    initPortAudio false true false false false = InitOutcome.proceeded := by
  decide

/-- C5 (amended): encoder-init, capture-stream-open and capture-start failures
log and abort the Session with no retry; device-acquisition and
destination-file-creation errors are silently discarded and the Session
proceeds; and no initialization failure escalates to a process-wide abort —
the only fatal branch guards the registry init, whose error is always nil. -/
theorem init_failure_policy (deviceErr createErr lameErr openErr startErr : Bool) :
    (lameErr = true →
      initPortAudio deviceErr createErr lameErr openErr startErr
        = InitOutcome.sessionAbort InitStep.lameWriter)
    ∧ (lameErr = false → openErr = true →
      initPortAudio deviceErr createErr lameErr openErr startErr
        = InitOutcome.sessionAbort InitStep.openStream)
    ∧ (lameErr = false → openErr = false → startErr = true →
      initPortAudio deviceErr createErr lameErr openErr startErr
        = InitOutcome.sessionAbort InitStep.startStream)
    ∧ (initPortAudio deviceErr true lameErr openErr startErr
        = initPortAudio deviceErr false lameErr openErr startErr)
    ∧ (initPortAudio true createErr lameErr openErr startErr
        = initPortAudio false createErr lameErr openErr startErr)
    ∧ (initPortAudio deviceErr createErr lameErr openErr startErr
        ≠ InitOutcome.processFatal) := by
  revert deviceErr createErr lameErr openErr startErr
  decide

theorem init_failure_policy_witness :
    initPortAudio false false true false false
      = InitOutcome.sessionAbort InitStep.lameWriter :=
  (init_failure_policy false false true false false).1 rfl

/-- C10: `streamer.init` returns a nil error on every call (its named error
return is never assigned), so the `log.Fatalln` branch in `initPortAudio` is
unreachable: no combination of initialization failures yields a process-wide
fatal abort. -/
theorem registry_init_infallible :
    (∀ s : streamer, (s.init).2 = none)
    ∧ ∀ deviceErr createErr lameErr openErr startErr : Bool,
        initPortAudio deviceErr createErr lameErr openErr startErr
          ≠ InitOutcome.processFatal := by
  constructor
  · intro s
    rfl
  · decide

/-- A byte of the encoded stream. -/
abbrev Byte := Nat

/-- `io.ReadFull(s.Input, buffer)` with a buffer of `n` bytes: succeeds
returning the first `n` bytes and the rest of the stream exactly when at least
`n` bytes are available; a short read or end-of-stream is an error (`none`). -/
def readFull (input : List Byte) (n : Nat) : Option (List Byte × List Byte) :=
  if n ≤ input.length then some (input.take n, input.drop n) else none

/-- Why a run of `readLoop` ended: the administrative enable flag was false at
an iteration boundary, `io.ReadFull` failed, or the modelled trace ran out
while the loop was still going. -/
inductive LoopExit where
  | disabled
  | readError
  | fuelOut
deriving Repr, DecidableEq

/-- Go `streamer.readLoop`.  `flags` is the sequence of values the shared
`globalSettings.AudioRecordingEnabled` flag has at the successive iteration
checks (it also bounds how many iterations are modelled); `input` is the byte
stream of the live feed pipe.  Each iteration: return when the flag is false;
otherwise read exactly `ReadBuff` bytes, returning on any read failure, and on
success broadcast the chunk with `send` and continue. -/
def streamer.readLoop (s : streamer) (flags : List Bool) (input : List Byte) :
    streamer × LoopExit :=
  match flags with
  | [] => (s, .fuelOut)
  | f :: fs =>
    if !f then (s, .disabled)
    else match readFull input s.ReadBuff with
      | none => (s, .readError)
      | some (buf, rest) => (s.send buf).readLoop fs rest

/-- The first `k` successive `n`-byte chunks of `input`. -/
def chunksOf (n : Nat) : Nat → List Byte → List Chunk
  | 0, _ => []
  | k + 1, input => input.take n :: chunksOf n k (input.drop n)

/-- C6: each read-loop iteration first checks the enable flag and returns if
it is false; otherwise it reads exactly `ReadBuff` bytes, broadcasting the
chunk on success, and any read failure (short read or end-of-stream) ends the
loop at once — the remaining trace is never consumed, so nothing is retried.
The last conjunct runs whole loops: with the flag continuously enabled and an
input of exactly `k` full chunks, the loop broadcasts those `k` chunks in
order and then dies of the read error at end-of-stream. -/
theorem readLoop_spec :
    (∀ (s : streamer) (fs : List Bool) (input : List Byte),
        s.readLoop (false :: fs) input = (s, LoopExit.disabled))
    ∧ (∀ (s : streamer) (fs : List Bool) (input : List Byte),
        input.length < s.ReadBuff →
          s.readLoop (true :: fs) input = (s, LoopExit.readError))
    ∧ (∀ (s : streamer) (fs : List Bool) (input : List Byte),
        s.ReadBuff ≤ input.length →
          s.readLoop (true :: fs) input
            = (s.send (input.take s.ReadBuff)).readLoop fs (input.drop s.ReadBuff))
    ∧ (∀ (k : Nat) (s : streamer) (input : List Byte) (flags : List Bool),
        0 < s.ReadBuff → input.length = k * s.ReadBuff →
        flags.length = k + 1 → flags.all (fun x => x) = true →
          s.readLoop flags input
            = ((chunksOf s.ReadBuff k input).foldl streamer.send s,
               LoopExit.readError)) := by
  refine ⟨?_, ?_, ?_, ?_⟩
  · intro s fs input
    rfl
  · intro s fs input h
    simp [streamer.readLoop, readFull, Nat.not_le.mpr h]
  · intro s fs input h
    simp [streamer.readLoop, readFull, h]
  · intro k
    induction k with
    | zero =>
      intro s input flags hrb hlen hfl hall
      have hinput : input = [] := List.eq_nil_of_length_eq_zero (by simpa using hlen)
      obtain ⟨f, hf⟩ := List.length_eq_one.mp hfl
      subst hinput hf
      have hft : f = true := by simpa using hall
      subst hft
      have hne : ¬ (s.ReadBuff ≤ (0 : Nat)) := by omega
      simp [streamer.readLoop, readFull, chunksOf, hne]
    | succ k ih =>
      intro s input flags hrb hlen hfl hall
      obtain ⟨f, fs, hf⟩ : ∃ f fs, flags = f :: fs := by
        cases flags with
        | nil => simp at hfl
        | cons a l => exact ⟨a, l, rfl⟩
      subst hf
      have hfall : f = true ∧ fs.all (fun x => x) = true := by
        simpa using hall
      obtain ⟨rfl, hall2⟩ := hfall
      have hle : s.ReadBuff ≤ input.length := by
        rw [hlen, Nat.succ_mul]
        omega
      have hstep : s.readLoop (true :: fs) input
          = (s.send (input.take s.ReadBuff)).readLoop fs (input.drop s.ReadBuff) := by
        simp [streamer.readLoop, readFull, hle]
      have hlen2 : (input.drop s.ReadBuff).length = k * s.ReadBuff := by
        rw [List.length_drop, hlen, Nat.succ_mul, Nat.add_sub_cancel]
      have hfl2 : fs.length = k + 1 := by simpa using hfl
      have hrec := ih (s.send (input.take s.ReadBuff)) (input.drop s.ReadBuff) fs
        hrb hlen2 hfl2 hall2
      rw [show (s.send (input.take s.ReadBuff)).ReadBuff = s.ReadBuff from rfl] at hrec
      rw [hstep, hrec]
      simp [chunksOf, List.foldl]

/-- A one-subscriber streamer with a tiny read buffer for concrete runs. -/
def tinyStreamer : streamer :=
  { clients := [(1, ⟨[], []⟩)], id := 1, ReadBuff := 2, QueueSize := 10,
    WriteBuff := 32768 }

theorem readLoop_spec_witness :
    tinyStreamer.readLoop [true, true, true] [1, 2, 3, 4]
      = ((chunksOf 2 2 [1, 2, 3, 4]).foldl streamer.send tinyStreamer,
         LoopExit.readError) :=
  readLoop_spec.2.2.2 2 tinyStreamer [1, 2, 3, 4] [true, true, true]
    (by decide) (by decide) (by decide) (by decide)

/-- The spawn condition checked by `initAudio` on every supervisor tick:
`globalSettings.AudioRecordingEnabled && len(globalStatus.AudioRecordingFile) == 0`.
A session is started (`go initPortAudio()`) exactly when this is true. -/
def tickSpawns (enabled : Bool) (fileName : String) : Bool :=
  enabled && fileName.length == 0

/-- C7: a supervisor tick spawns a new session if and only if administrative
recording is enabled and the status file name is empty; in particular, while
the status shows a non-empty active file name no tick starts a second session,
so ticks never run two sessions side by side. -/
theorem supervisor_single_session (enabled : Bool) (fileName : String) :
    (tickSpawns enabled fileName = true ↔ enabled = true ∧ fileName = "")
    ∧ (fileName ≠ "" → tickSpawns enabled fileName = false) := by
  constructor
  · constructor
    · intro h
      have h2 := (Bool.and_eq_true _ _).mp h
      refine ⟨h2.1, ?_⟩
      have h3 : fileName.length = 0 := by simpa using h2.2
      cases fileName with
      | mk data =>
        cases data with
        | nil => rfl
        | cons c cs => simp [String.length] at h3
    · rintro ⟨rfl, rfl⟩
      rfl
  · intro hne
    cases henb : enabled with
    | false => rfl
    | true =>
      cases fileName with
      | mk data =>
        cases data with
        | nil => exact absurd rfl hne
        | cons c cs =>
          simp [tickSpawns, String.length]

theorem supervisor_single_session_witness :
    tickSpawns true "2026-01-02-150405.mp3" = false :=
  (supervisor_single_session true "2026-01-02-150405.mp3").2 (by decide)

/-- The observable steps of a session's termination phase. -/
inductive TeardownEvent where
  | resetStatusFile
  | resetLoudness
  | closeStream
  | closeEncoder
  | closeFile
  | terminateDevice
deriving Repr, DecidableEq, BEq

/-- The defers of `initPortAudio` in the order they are pushed, one at each
acquisition: `portaudio.Terminate` (line 49), `mp3File.Close` (line 54),
`pcmWriter.Close` (line 72), `stream.Close` (line 94). -/
def deferStack : List TeardownEvent :=
  [.terminateDevice, .closeFile, .closeEncoder, .closeStream]

/-- The statements `initPortAudio` executes after `readLoop` returns and
before the function returns: the two status resets of lines 115–116. -/
def bodyAfterReadLoop : List TeardownEvent := [.resetStatusFile, .resetLoudness]

/-- Go defer semantics: the rest of the body runs first, then the deferred
calls run in LIFO (reverse push) order. -/
def sessionTeardown : List TeardownEvent := bodyAfterReadLoop ++ deferStack.reverse

/-- The `globalStatus` fields the session touches.  The loudness field is a
float in the source; only its reset to an exact zero matters here, so it is
carried as an integer-valued placeholder. -/
structure StatusSnapshot where
  AudioRecordingFile : String
  AudioRecordingLoundness : Int
deriving Repr, DecidableEq

def applyTeardown (st : StatusSnapshot) : TeardownEvent → StatusSnapshot
  | .resetStatusFile => { st with AudioRecordingFile := "" }
  | .resetLoudness => { st with AudioRecordingLoundness := 0 }
  | _ => st

def runTeardown (st : StatusSnapshot) : StatusSnapshot :=
  sessionTeardown.foldl applyTeardown st

/-- C8 counterexample: the claimed teardown order puts the Status Snapshot
reset after the resource closes, but in the code the two status assignments
run before the deferred closes, so `closeStream` does NOT precede
`resetStatusFile` in the teardown sequence. -/
theorem teardown_status_reset_not_last :
    ¬ (sessionTeardown.findIdx (fun e => e == TeardownEvent.closeStream)
        < sessionTeardown.findIdx (fun e => e == TeardownEvent.resetStatusFile)) := by
  decide

/-- C8 (amended): when the read loop terminates the session resets the Status
Snapshot first — the two status assignments precede the deferred calls — and
then the deferred teardown runs in reverse acquisition order: close the
capture stream, close the encoder (flushing to the sink), close the file,
terminate the device subsystem; after termination the status holds an empty
file name and zero loudness. -/
theorem session_teardown_spec (st : StatusSnapshot) :
    sessionTeardown
      = [TeardownEvent.resetStatusFile, TeardownEvent.resetLoudness,
         TeardownEvent.closeStream, TeardownEvent.closeEncoder,
         TeardownEvent.closeFile, TeardownEvent.terminateDevice]
    ∧ (runTeardown st).AudioRecordingFile = ""
    ∧ (runTeardown st).AudioRecordingLoundness = 0 := by
  refine ⟨by decide, ?_, ?_⟩
  · cases st
    rfl
  · cases st
    rfl

/-- The response headers set by `handleAudioStream` (lines 208–211). -/
def handlerHeaders : List (String × String) :=
  [("Content-Type", "audio/mpeg"), ("Cache-Control", "no-cache"),
   ("Pragma", "no-cache"), ("Server", "dumb-mp3-streamer")]

/-- The literal 10-byte MP3 priming header `head` (line 213). -/
def mp3Head : Chunk := [0x49, 0x44, 0x33, 0x03, 0x00, 0x00, 0x00, 0x00, 0x00, 0x00]

/-- What one run of `handleAudioStream` did: the headers it set, the writes
that succeeded (in order), and whether the deferred `delClient` ran. -/
structure HandlerRun where
  headers : List (String × String)
  written : List Chunk
  unsubscribed : Bool
deriving Repr, DecidableEq

/-- The write loop of `handleAudioStream`: the `j`-th write through the
buffered writer succeeds when `writeOk j`, and the first failing write breaks
the loop. -/
def writeChunks (writeOk : Nat → Bool) : Nat → List Chunk → List Chunk
  | _, [] => []
  | j, c :: cs => if writeOk j then c :: writeChunks writeOk (j + 1) cs else []

/-- Go `handleAudioStream` for one connection.  `chunks` is the sequence of
chunks the subscriber's queue delivers to `<-recieve` while the connection
lasts; `writeOk j` says whether the `j`-th write through the buffered writer
succeeds — write 0 is the priming header, written before any chunk.  A failed
write makes the handler return; the deferred `delClient(id)` runs on every
exit path. -/
def handleAudioStream (chunks : List Chunk) (writeOk : Nat → Bool) : HandlerRun :=
  if writeOk 0 then
    { headers := handlerHeaders,
      written := mp3Head :: writeChunks writeOk 1 chunks,
      unsubscribed := true }
  else
    { headers := handlerHeaders, written := [], unsubscribed := true }

/-- C9: the delivery handler sets exactly the headers `Content-Type:
audio/mpeg`, `Cache-Control: no-cache`, `Pragma: no-cache` and the fixed
server identifier; its first successful write is the literal 10-byte priming
header, before any chunk; with all writes succeeding it writes the priming
header followed by every queued chunk in order; no write succeeds after the
first failed one; and it unsubscribes unconditionally on every exit path. -/
theorem handler_spec (chunks : List Chunk) (writeOk : Nat → Bool) :
    (handleAudioStream chunks writeOk).headers
      = [("Content-Type", "audio/mpeg"), ("Cache-Control", "no-cache"),
         ("Pragma", "no-cache"), ("Server", "dumb-mp3-streamer")]
    ∧ (handleAudioStream chunks writeOk).unsubscribed = true
    ∧ (writeOk 0 = true →
        (handleAudioStream chunks writeOk).written.head? = some mp3Head)
    ∧ (writeOk 0 = false → (handleAudioStream chunks writeOk).written = [])
    ∧ ((∀ j, writeOk j = true) →
        (handleAudioStream chunks writeOk).written = mp3Head :: chunks)
    ∧ (∀ j, writeOk j = false →
        (handleAudioStream chunks writeOk).written.length ≤ j) := by
  have hstop : ∀ (cs : List Chunk) (j m : Nat), writeOk m = false → j ≤ m →
      (writeChunks writeOk j cs).length ≤ m - j := by
    intro cs
    induction cs with
    | nil =>
      intro j m _ _
      simp [writeChunks]
    | cons c t ih =>
      intro j m hm hjm
      cases hj : writeOk j with
      | false => simp [writeChunks, hj]
      | true =>
        have hne : j ≠ m := fun he => by rw [he, hm] at hj; cases hj
        have h2 := ih (j + 1) m hm (by omega)
        simp only [writeChunks, hj, if_true, List.length_cons]
        omega
  refine ⟨?_, ?_, ?_, ?_, ?_, ?_⟩
  · by_cases h : writeOk 0 = true <;>
      simp [handleAudioStream, h, handlerHeaders]
  · by_cases h : writeOk 0 = true <;>
      simp [handleAudioStream, h]
  · intro h
    simp [handleAudioStream, h]
  · intro h
    simp [handleAudioStream, h]
  · intro hw
    have hall : ∀ (cs : List Chunk) (j : Nat), writeChunks writeOk j cs = cs := by
      intro cs
      induction cs with
      | nil => intro j; rfl
      | cons c t ih =>
        intro j
        simp [writeChunks, hw j, ih (j + 1)]
    simp [handleAudioStream, hw 0, hall chunks 1]
  · intro j hj
    by_cases h0 : writeOk 0 = true
    · cases j with
      | zero => rw [hj] at h0; cases h0
      | succ m =>
        have h2 := hstop chunks 1 (m + 1) hj (by omega)
        simp only [handleAudioStream, h0, if_true, List.length_cons]
        omega
    · have h0f : writeOk 0 = false := by
        cases hc : writeOk 0 with
        | false => rfl
        | true => exact absurd hc h0
      simp [handleAudioStream, h0f]

theorem handler_spec_witness :
    (handleAudioStream [[1], [2]] (fun _ => true)).written = mp3Head :: [[1], [2]]
    ∧ (handleAudioStream [[1], [2]] (fun _ => true)).unsubscribed = true :=
  ⟨(handler_spec [[1], [2]] (fun _ => true)).2.2.2.2.1 (fun _ => rfl),
   (handler_spec [[1], [2]] (fun _ => true)).2.1⟩

end Stratux
